import Mathlib

/-!
A shallow embedding of the cjdns fixed-capacity bump allocator
(src/memory/BufferAllocator.c), together with theorems checking its
natural-language specification against the code.

Addresses and sizes are modelled as natural numbers taken modulo the
64-bit machine word, matching the pointer / unsigned-long arithmetic of
the C source on an LP64 platform.  Raising through the out-of-memory
hook is modelled two ways: the primary model returns in an error monad
(the hook performs a non-local exit, as its contract demands), and a
secondary model records the raised codes and falls through, for the
case where the hook returns to the allocator.  The raw memory copy and
zero-fill primitives are trusted externals in the source; the models
expose the number of bytes they are asked to touch as data.
-/

namespace BufferAlloc

/-- The machine word modulus: pointers and unsigned long are 64 bits. -/
def W : Nat := 2 ^ 64

/-- ALIGNMENT in the source is the size of a pointer, 8 bytes on LP64. -/
def ALIGNMENT : Nat := 8

/-- The getAligned macro: ((p + ALIGNMENT - 1) & ~(ALIGNMENT - 1)) in
uintptr arithmetic.  For the power-of-two ALIGNMENT = 8 the mask
~(ALIGNMENT-1) is the word with the low three bits clear, so the
bitwise AND clears the low three bits of its operand, i.e. subtracts
the operand's remainder modulo 8. -/
def getAligned (p : Nat) : Nat :=
  ((p + (ALIGNMENT - 1)) % W) - ((p + (ALIGNMENT - 1)) % W) % ALIGNMENT

/-- A struct Job in the free-job chain.  The uid field models the Job
record's pointer identity (each record allocated by onFree is a fresh
object); callback and callbackContext model the stored function and
opaque context pointers as plain tokens. -/
structure Job where
  uid : Nat
  callback : Nat
  callbackContext : Nat
deriving DecidableEq

/-- The struct BufferAllocator control block.  The onFree field is the
singly linked chain of Jobs in append order; nextUid is the ghost
supply of fresh Job identities.  The onOOM hook is modelled by the
error monad of the operations, and the file/line fields are inert
diagnostic metadata, so neither is carried in the state. -/
structure BufferAllocator where
  basePointer : Nat
  pointer : Nat
  endPointer : Nat
  onFree : List Job
  nextUid : Nat
deriving DecidableEq

instance {ε α : Type} [DecidableEq ε] [DecidableEq α] :
    DecidableEq (Except ε α) := fun x y =>
  match x, y with
  | .error a, .error b =>
    if h : a = b then isTrue (by simp [h]) else isFalse (by simp [h])
  | .error _, .ok _ => isFalse (by simp)
  | .ok _, .error _ => isFalse (by simp)
  | .ok a, .ok b =>
    if h : a = b then isTrue (by simp [h]) else isFalse (by simp [h])

/-- The aligned cursor plus the requested length, in machine
arithmetic: the endOfAlloc value the source computes. -/
def candidateEnd (ctx : BufferAllocator) (length : Nat) : Nat :=
  (getAligned ctx.pointer + length) % W

/-- allocatorMalloc: align the cursor, compute endOfAlloc, raise -1 to
the hook if endOfAlloc is at or past endPointer, raise -2 if endOfAlloc
wrapped below the (pre-alignment) cursor, otherwise commit the cursor
and return the aligned address.  The error monad models the hook
performing its contractual non-local exit. -/
def allocatorMalloc (length : Nat) (ctx : BufferAllocator) :
    Except Int (Nat × BufferAllocator) :=
  let pointer := getAligned ctx.pointer
  let endOfAlloc := (pointer + length) % W
  if ctx.endPointer ≤ endOfAlloc then
    .error (-1)
  else if endOfAlloc < ctx.pointer then
    .error (-2)
  else
    .ok (pointer, { ctx with pointer := endOfAlloc })

/-- allocatorMalloc under the fall-through semantics: the raised codes
are recorded and the hook returns, so control continues past both
checks to the cursor assignment and the return, exactly as the C falls
through.  Result: (codes raised, returned address, new state). -/
def allocatorMallocHookReturns (length : Nat) (ctx : BufferAllocator) :
    List Int × Nat × BufferAllocator :=
  let pointer := getAligned ctx.pointer
  let endOfAlloc := (pointer + length) % W
  let raised :=
    (if ctx.endPointer ≤ endOfAlloc then [(-1 : Int)] else []) ++
    (if endOfAlloc < ctx.pointer then [(-2 : Int)] else [])
  (raised, pointer, { ctx with pointer := endOfAlloc })

/-- allocatorCalloc: the source calls allocatorMalloc(length * count)
with the product computed in unsigned long arithmetic, then zero-fills
the same number of bytes with Bits_memset.  The middle component of
the result is the byte count handed to the zero-fill primitive. -/
def allocatorCalloc (length count : Nat) (ctx : BufferAllocator) :
    Except Int (Nat × Nat × BufferAllocator) :=
  match allocatorMalloc ((length * count) % W) ctx with
  | .error e => .error e
  | .ok (pointer, st) => .ok (pointer, (length * count) % W, st)

/-- allocatorClone: malloc then copy length bytes from the source
object.  The middle component is the byte count handed to
Bits_memcpy. -/
def allocatorClone (length : Nat) (ctx : BufferAllocator) :
    Except Int (Nat × Nat × BufferAllocator) :=
  match allocatorMalloc length ctx with
  | .error e => .error e
  | .ok (pointer, st) => .ok (pointer, length, st)

/-- allocatorRealloc: NULL original forwards to allocatorMalloc
(copying nothing); otherwise the cursor is read before the fresh
allocation, amountToClone is the smaller of length and the uint32_t
truncation of (cursor - original), a fresh block is allocated and
amountToClone bytes are copied.  The middle component is the byte
count handed to Bits_memcpy. -/
def allocatorRealloc (original : Option Nat) (length : Nat)
    (ctx : BufferAllocator) : Except Int (Nat × Nat × BufferAllocator) :=
  match original with
  | none =>
    match allocatorMalloc length ctx with
    | .error e => .error e
    | .ok (pointer, st) => .ok (pointer, 0, st)
  | some orig =>
    let pointer := ctx.pointer
    let diff32 := ((pointer + W - orig) % W) % 2 ^ 32
    let amountToClone := if length < diff32 then length else diff32
    match allocatorMalloc length ctx with
    | .error e => .error e
    | .ok (newAlloc, st) => .ok (newAlloc, amountToClone, st)

/-- freeAllocator: walk the onFree chain invoking each callback in
order, then reset the cursor to basePointer.  The first component is
the sequence of (callback, context) invocations, in order.  The chain
head itself is not written. -/
def freeAllocator (ctx : BufferAllocator) :
    List (Nat × Nat) × BufferAllocator :=
  (ctx.onFree.map (fun j => (j.callback, j.callbackContext)),
   { ctx with pointer := ctx.basePointer })

/-- The chain walk inside removeOnFreeJob: unlink the first Job whose
identity matches, returning none when no Job matches. -/
def removeFirstJob (u : Nat) : List Job → Option (List Job)
  | [] => none
  | j :: rest =>
    if j.uid = u then some rest
    else (removeFirstJob u rest).map (fun l => j :: l)

/-- removeOnFreeJob: scan the chain for the Job, unlink it and return
0, or return -1 when it is not found (a benign failure).  It never
invokes a callback and never frees memory. -/
def removeOnFreeJob (u : Nat) (ctx : BufferAllocator) :
    Int × BufferAllocator :=
  match removeFirstJob u ctx.onFree with
  | some l => (0, { ctx with onFree := l })
  | none => (-1, ctx)

/-- onFree (registration): clone a fresh Job record from the arena
itself (an allocation of the Job's size, which can raise), then append
it at the tail of the chain.  Returns the new Job's identity (the
cancellation handle). -/
def onFree (callback callbackContext szJob : Nat) (ctx : BufferAllocator) :
    Except Int (Nat × BufferAllocator) :=
  match allocatorMalloc szJob ctx with
  | .error e => .error e
  | .ok (_, st) =>
    .ok (st.nextUid,
         { st with
             onFree := st.onFree ++ [⟨st.nextUid, callback, callbackContext⟩],
             nextUid := st.nextUid + 1 })

/-- BufferAllocator_newWithIdentity: align the buffer start, set the
end to buffer + length, fail (null) if the end compares below the
aligned start, fail if buffer + length compares below the aligned
start plus the size of the control block (both sides in machine
arithmetic), otherwise place the control block at the aligned start
and advance the cursor past it.  szBA is sizeof(struct
BufferAllocator), a platform constant kept as a parameter. -/
def BufferAllocator_newWithIdentity (buffer length szBA : Nat) :
    Option BufferAllocator :=
  let pointer := getAligned buffer
  let endPointer := (buffer + length) % W
  if endPointer < pointer then
    none
  else if (buffer + length) % W < (pointer + szBA) % W then
    none
  else
    some { basePointer := pointer
           pointer := (pointer + szBA) % W
           endPointer := endPointer
           onFree := []
           nextUid := 0 }

lemma W_eq : W = 18446744073709551616 := by norm_num [W]

lemma getAligned_lt_W (p : Nat) : getAligned p < W := by
  have h : (p + (ALIGNMENT - 1)) % W < W := Nat.mod_lt _ (by rw [W_eq]; omega)
  unfold getAligned
  omega

lemma getAligned_eq_mul (p : Nat) :
    getAligned p = ALIGNMENT * (((p + (ALIGNMENT - 1)) % W) / ALIGNMENT) := by
  have h := Nat.div_add_mod ((p + (ALIGNMENT - 1)) % W) ALIGNMENT
  unfold getAligned
  omega

lemma alignment_dvd_getAligned (p : Nat) : ALIGNMENT ∣ getAligned p :=
  ⟨_, getAligned_eq_mul p⟩

lemma le_getAligned (p : Nat) (h : p + 7 < W) : p ≤ getAligned p := by
  unfold getAligned ALIGNMENT
  rw [Nat.mod_eq_of_lt (by omega : p + (8 - 1) < W)]
  omega

lemma getAligned_le (p : Nat) (h : p + 7 < W) : getAligned p ≤ p + 7 := by
  unfold getAligned ALIGNMENT
  rw [Nat.mod_eq_of_lt (by omega : p + (8 - 1) < W)]
  omega

lemma getAligned_eq_self (p : Nat) (h8 : ALIGNMENT ∣ p) (hp : p < W) :
    getAligned p = p := by
  obtain ⟨k, rfl⟩ := h8
  have hW := W_eq
  unfold ALIGNMENT at *
  have hk : 8 * k + 7 < W := by omega
  unfold getAligned ALIGNMENT
  rw [Nat.mod_eq_of_lt (by omega : 8 * k + (8 - 1) < W)]
  omega

lemma malloc_error1_iff (n : Nat) (ctx : BufferAllocator) :
    allocatorMalloc n ctx = .error (-1) ↔
      ctx.endPointer ≤ candidateEnd ctx n := by
  unfold allocatorMalloc candidateEnd
  dsimp only
  split_ifs with h1 h2 <;> simp <;> omega

lemma malloc_error2_iff (n : Nat) (ctx : BufferAllocator) :
    allocatorMalloc n ctx = .error (-2) ↔
      candidateEnd ctx n < ctx.endPointer ∧ candidateEnd ctx n < ctx.pointer := by
  unfold allocatorMalloc candidateEnd
  dsimp only
  split_ifs with h1 h2 <;> simp <;> omega

lemma malloc_ok_iff (n : Nat) (ctx : BufferAllocator) (p : Nat)
    (st' : BufferAllocator) :
    allocatorMalloc n ctx = .ok (p, st') ↔
      candidateEnd ctx n < ctx.endPointer ∧ ctx.pointer ≤ candidateEnd ctx n ∧
      p = getAligned ctx.pointer ∧
      st' = { ctx with pointer := candidateEnd ctx n } := by
  unfold allocatorMalloc candidateEnd
  dsimp only
  split_ifs with h1 h2
  · simp; omega
  · simp; omega
  · constructor
    · intro h
      injection h with h'
      injection h' with hp hst
      exact ⟨by omega, by omega, hp.symm, hst.symm⟩
    · rintro ⟨-, -, rfl, rfl⟩
      rfl

/-- C1: on any arena state, allocate aligns the current cursor to the
pointer size and computes candidateEnd = alignedCursor + n in machine
arithmetic; it raises OUT_OF_MEMORY (code -1) through the OOM hook
exactly when candidateEnd is at or past endPointer (strict comparison,
so the last byte of the region is never handed out), and when no
failure condition holds it sets the cursor to candidateEnd and returns
alignedCursor. -/
theorem malloc_oom_iff_and_advances (ctx : BufferAllocator) (n : Nat) :
    (allocatorMalloc n ctx = .error (-1) ↔
       ctx.endPointer ≤ candidateEnd ctx n) ∧
    (candidateEnd ctx n < ctx.endPointer → ctx.pointer ≤ candidateEnd ctx n →
       allocatorMalloc n ctx =
         .ok (getAligned ctx.pointer,
              { ctx with pointer := candidateEnd ctx n })) := by
  refine ⟨malloc_error1_iff n ctx, fun h1 h2 => ?_⟩
  exact (malloc_ok_iff n ctx _ _).mpr ⟨h1, h2, rfl, rfl⟩

theorem malloc_oom_iff_and_advances_witness :
    (candidateEnd ⟨0, 104, 4096, [], 0⟩ 100 < 4096 ∧
     (104 : Nat) ≤ candidateEnd ⟨0, 104, 4096, [], 0⟩ 100) ∧
    allocatorMalloc 100 ⟨0, 104, 4096, [], 0⟩ =
      .ok (104, ⟨0, 204, 4096, [], 0⟩) := by
  refine ⟨⟨by decide, by decide⟩, ?_⟩
  have h := (malloc_oom_iff_and_advances ⟨0, 104, 4096, [], 0⟩ 100).2
    (by decide) (by decide)
  rw [h]
  decide

/-- C2 counterexample: on the arena built from a 4096-byte buffer at
address 0 (control block size 104), a request of 10000 bytes raises
OUT_OF_MEMORY, and when the hook returns the cursor has moved from 104
to 10104: a failing allocate does not leave the cursor unchanged. -/
theorem malloc_hook_returns_moves_cursor_cex :
    BufferAllocator_newWithIdentity 0 4096 104 = some ⟨0, 104, 4096, [], 0⟩ ∧
    (allocatorMallocHookReturns 10000 ⟨0, 104, 4096, [], 0⟩).1 = [(-1 : Int)] ∧
    (allocatorMallocHookReturns 10000 ⟨0, 104, 4096, [], 0⟩).2.2.pointer = 10104 ∧
    (10104 : Nat) ≠ 104 := by decide

/-- C2 amended: when the OOM hook returns to the allocator, control
falls through both checks, so the allocator behaves as on success: the
cursor is always set to candidateEnd (in general different from its
prior value) and alignedCursor is returned; OUT_OF_MEMORY is raised
exactly when candidateEnd is at or past endPointer. -/
theorem malloc_hook_returns_falls_through (ctx : BufferAllocator) (n : Nat) :
    ((-1 : Int) ∈ (allocatorMallocHookReturns n ctx).1 ↔
       ctx.endPointer ≤ candidateEnd ctx n) ∧
    (allocatorMallocHookReturns n ctx).2.2.pointer = candidateEnd ctx n ∧
    (allocatorMallocHookReturns n ctx).2.1 = getAligned ctx.pointer := by
  unfold allocatorMallocHookReturns candidateEnd
  dsimp only
  split_ifs with h1 h2 <;> simp [h1]

/-- C4 counterexample: on the arena built from a buffer of length
W - 1 at address 0, after a 1-byte allocation leaves the cursor at the
unaligned value 105, a request of W - 7 bytes wraps candidateEnd to
105, which is below the aligned cursor 112 — yet the allocator raises
nothing and succeeds, because the source compares endOfAlloc against
the pre-alignment cursor, not the aligned one. -/
theorem malloc_overflow_checks_unaligned_cursor_cex :
    BufferAllocator_newWithIdentity 0 (W - 1) 104 =
      some ⟨0, 104, W - 1, [], 0⟩ ∧
    allocatorMalloc 1 ⟨0, 104, W - 1, [], 0⟩ =
      .ok (104, ⟨0, 105, W - 1, [], 0⟩) ∧
    allocatorMalloc (W - 7) ⟨0, 105, W - 1, [], 0⟩ =
      .ok (112, ⟨0, 105, W - 1, [], 0⟩) ∧
    candidateEnd ⟨0, 105, W - 1, [], 0⟩ (W - 7) < getAligned 105 := by decide

/-- C4 amended: allocate signals OVERFLOW through the hook with code
-2 — distinct from the OUT_OF_MEMORY code -1 — exactly when the
out-of-memory condition does not hold and candidateEnd wrapped below
the pre-alignment cursor value (the source checks endOfAlloc against
context->pointer, not against the aligned cursor). -/
theorem malloc_overflow_iff (ctx : BufferAllocator) (n : Nat) :
    (allocatorMalloc n ctx = .error (-2) ↔
       candidateEnd ctx n < ctx.endPointer ∧
       candidateEnd ctx n < ctx.pointer) ∧
    (-2 : Int) ≠ (-1 : Int) := by
  refine ⟨malloc_error2_iff n ctx, by decide⟩

lemma new_some_fields (buffer length szBA : Nat) (st : BufferAllocator)
    (h : BufferAllocator_newWithIdentity buffer length szBA = some st) :
    st.basePointer = getAligned buffer ∧
    st.pointer = (getAligned buffer + szBA) % W ∧
    st.endPointer = (buffer + length) % W ∧
    st.onFree = [] ∧ st.nextUid = 0 := by
  unfold BufferAllocator_newWithIdentity at h
  dsimp only at h
  split_ifs at h
  injection h with h
  subst h
  exact ⟨rfl, rfl, rfl, rfl, rfl⟩

/-- C6 counterexample: for a 32-byte buffer at address W - 64 (already
aligned) with a 104-byte control block, the end pointer W - 32 does
not wrap below the aligned start, and the 32 bytes after alignment
cannot hold the control block, so the claim requires a null handle —
yet construction succeeds, because the sum alignedStart + sizeof
control block wraps in the second check. -/
theorem new_succeeds_despite_insufficient_space_cex :
    BufferAllocator_newWithIdentity (W - 64) 32 104 =
      some ⟨W - 64, 40, W - 32, [], 0⟩ ∧
    ¬ (((W - 64) + 32) % W < getAligned (W - 64)) ∧
    ((W - 64) + 32) % W - getAligned (W - 64) < 104 := by decide

/-- C6 amended: construction returns a null handle exactly when the
end pointer buffer + length compares below the aligned start, or when
buffer + length compares below alignedStart + sizeof control block
with both sides reduced modulo 2^64 — so a wrap of the latter sum can
let an undersized buffer through.  On success the control block sits
at the aligned start, the cursor is just past it, and the arena starts
with an empty free-job chain. -/
theorem new_none_iff_and_success_layout (buffer length szBA : Nat) :
    (BufferAllocator_newWithIdentity buffer length szBA = none ↔
       (buffer + length) % W < getAligned buffer ∨
       (buffer + length) % W < (getAligned buffer + szBA) % W) ∧
    (∀ st, BufferAllocator_newWithIdentity buffer length szBA = some st →
       st.basePointer = getAligned buffer ∧
       st.pointer = (getAligned buffer + szBA) % W ∧
       st.endPointer = (buffer + length) % W ∧
       st.onFree = [] ∧ st.nextUid = 0) := by
  refine ⟨?_, fun st h => new_some_fields buffer length szBA st h⟩
  unfold BufferAllocator_newWithIdentity
  dsimp only
  split_ifs with h1 h2
  · simp [h1]
  · simp [h2]
  · simp [h1, h2]

theorem new_none_iff_and_success_layout_witness :
    (⟨0, 104, 4096, [], 0⟩ : BufferAllocator).basePointer = getAligned 0 ∧
    (⟨0, 104, 4096, [], 0⟩ : BufferAllocator).pointer =
      (getAligned 0 + 104) % W ∧
    (⟨0, 104, 4096, [], 0⟩ : BufferAllocator).endPointer = (0 + 4096) % W ∧
    (⟨0, 104, 4096, [], 0⟩ : BufferAllocator).onFree = [] ∧
    (⟨0, 104, 4096, [], 0⟩ : BufferAllocator).nextUid = 0 :=
  (new_none_iff_and_success_layout 0 4096 104).2
    ⟨0, 104, 4096, [], 0⟩ (by decide)

/-- C3 counterexample: construct from a 4096-byte buffer at address 0
(control block 104 bytes); the first allocation returns address 104;
after bulkFree the next allocation returns address 0 — the reclaimed
control block's own address — not 104. -/
theorem bulkFree_next_alloc_differs_from_first_cex :
    BufferAllocator_newWithIdentity 0 4096 104 = some ⟨0, 104, 4096, [], 0⟩ ∧
    allocatorMalloc 100 ⟨0, 104, 4096, [], 0⟩ =
      .ok (104, ⟨0, 204, 4096, [], 0⟩) ∧
    (freeAllocator ⟨0, 204, 4096, [], 0⟩).2 = ⟨0, 0, 4096, [], 0⟩ ∧
    allocatorMalloc 50 ⟨0, 0, 4096, [], 0⟩ =
      .ok (0, ⟨0, 50, 4096, [], 0⟩) ∧
    (0 : Nat) ≠ 104 := by decide

/-- C3 amended: bulkFree resets the cursor to basePointer, the aligned
start of the buffer where the control block itself lived, so the next
allocate returns basePointer; the very first allocation after
construction instead returned the aligned address just past the
control block, so for a positive control-block size (without address
wrap) the post-bulkFree address is strictly below the first
allocation's address, not equal to it. -/
theorem bulkFree_next_alloc_returns_basePointer
    (buffer length szBA n m : Nat) (st0 st1 st2 st3 : BufferAllocator)
    (a b : Nat)
    (hc : BufferAllocator_newWithIdentity buffer length szBA = some st0)
    (h1 : allocatorMalloc n st0 = .ok (a, st1))
    (hbase : st2.basePointer = st0.basePointer)
    (h3 : allocatorMalloc m (freeAllocator st2).2 = .ok (b, st3)) :
    b = st0.basePointer ∧
    a = getAligned ((getAligned buffer + szBA) % W) ∧
    (0 < szBA → getAligned buffer + szBA + 7 < W → b < a) := by
  obtain ⟨hb0, hp0, -, -, -⟩ := new_some_fields buffer length szBA st0 hc
  have ha := ((malloc_ok_iff n st0 a st1).mp h1).2.2.1
  have hb := ((malloc_ok_iff m (freeAllocator st2).2 b st3).mp h3).2.2.1
  have hbfree : (freeAllocator st2).2.pointer = st2.basePointer := rfl
  rw [hbfree, hbase, hb0] at hb
  rw [getAligned_eq_self _ (alignment_dvd_getAligned buffer)
        (getAligned_lt_W buffer)] at hb
  refine ⟨by rw [hb, hb0], by rw [ha, hp0], fun hpos hlt => ?_⟩
  rw [hb, ha, hp0]
  rw [Nat.mod_eq_of_lt (by omega : getAligned buffer + szBA < W)]
  have hle := le_getAligned (getAligned buffer + szBA) (by omega)
  omega

theorem bulkFree_next_alloc_returns_basePointer_witness :
    (0 : Nat) = (⟨0, 104, 4096, [], 0⟩ : BufferAllocator).basePointer ∧
    (104 : Nat) = getAligned ((getAligned 0 + 104) % W) ∧
    (0 : Nat) < 104 := by
  have h := bulkFree_next_alloc_returns_basePointer 0 4096 104 100 50
    ⟨0, 104, 4096, [], 0⟩ ⟨0, 204, 4096, [], 0⟩ ⟨0, 204, 4096, [], 0⟩
    ⟨0, 50, 4096, [], 0⟩ 104 0
    (by decide) (by decide) (by decide) (by decide)
  exact ⟨h.1, h.2.1, h.2.2 (by decide) (by decide)⟩

lemma malloc_ok_addr (n : Nat) (ctx : BufferAllocator) (a : Nat)
    (st' : BufferAllocator) (h : allocatorMalloc n ctx = .ok (a, st')) :
    a = getAligned ctx.pointer :=
  ((malloc_ok_iff n ctx a st').mp h).2.2.1

/-- C7 counterexample: on an 8 GiB arena, allocate 2^32 bytes at
address 104, then resize that block to 100 bytes.  The cursor minus
the original address is 2^32, whose uint32_t truncation is 0, so the
code hands the copy primitive 0 bytes, while the claim's
min(newSize, cursor - original) is 100. -/
theorem realloc_truncates_copy_length_cex :
    BufferAllocator_newWithIdentity 0 (2 ^ 33) 104 =
      some ⟨0, 104, 2 ^ 33, [], 0⟩ ∧
    allocatorMalloc (2 ^ 32) ⟨0, 104, 2 ^ 33, [], 0⟩ =
      .ok (104, ⟨0, 2 ^ 32 + 104, 2 ^ 33, [], 0⟩) ∧
    allocatorRealloc (some 104) 100 ⟨0, 2 ^ 32 + 104, 2 ^ 33, [], 0⟩ =
      .ok (2 ^ 32 + 104, 0, ⟨0, 2 ^ 32 + 204, 2 ^ 33, [], 0⟩) ∧
    min 100 ((2 ^ 32 + 104) - 104) = 100 ∧ (0 : Nat) ≠ 100 := by decide

/-- C7 amended: resize with a null original behaves exactly as
allocate (nothing is copied); with a non-null original it never
resizes in place — it allocates a fresh block of newSize bytes and
hands the copy primitive min(newSize, (cursor - original) mod 2^32)
bytes, the difference truncated to uint32_t by the source's cast,
where the cursor is read before the fresh allocation. -/
theorem realloc_copies_truncated_min (ctx : BufferAllocator)
    (orig newSize : Nat) :
    (∀ a amt st', allocatorRealloc none newSize ctx = .ok (a, amt, st') →
       allocatorMalloc newSize ctx = .ok (a, st') ∧ amt = 0) ∧
    (∀ e, allocatorRealloc none newSize ctx = .error e ↔
       allocatorMalloc newSize ctx = .error e) ∧
    (∀ a amt st',
       allocatorRealloc (some orig) newSize ctx = .ok (a, amt, st') →
       amt = min newSize (((ctx.pointer + W - orig) % W) % 2 ^ 32) ∧
       allocatorMalloc newSize ctx = .ok (a, st')) := by
  refine ⟨?_, ?_, ?_⟩
  · intro a amt st' h
    unfold allocatorRealloc at h
    cases hm : allocatorMalloc newSize ctx with
    | error e => rw [hm] at h; exact absurd h (by simp)
    | ok v =>
      obtain ⟨p, st⟩ := v
      rw [hm] at h
      simp only at h
      injection h with h
      injection h with ha h
      injection h with hamt hst
      subst ha; subst hamt; subst hst
      exact ⟨rfl, rfl⟩
  · intro e
    unfold allocatorRealloc
    cases hm : allocatorMalloc newSize ctx with
    | error e' => simp
    | ok v => obtain ⟨p, st⟩ := v; simp
  · intro a amt st' h
    unfold allocatorRealloc at h
    dsimp only at h
    cases hm : allocatorMalloc newSize ctx with
    | error e => rw [hm] at h; exact absurd h (by simp)
    | ok v =>
      obtain ⟨p, st⟩ := v
      rw [hm] at h
      simp only at h
      injection h with h
      injection h with ha h
      injection h with hamt hst
      subst ha; subst hamt; subst hst
      refine ⟨?_, rfl⟩
      rw [Nat.min_def]
      split_ifs <;> omega

theorem realloc_copies_truncated_min_witness :
    ((50 : Nat) = min 50 (((204 + W - 104) % W) % 2 ^ 32) ∧
     allocatorMalloc 50 ⟨0, 204, 4096, [], 0⟩ =
       .ok (208, ⟨0, 258, 4096, [], 0⟩)) ∧
    (allocatorMalloc 20 ⟨0, 204, 4096, [], 0⟩ =
       .ok (208, ⟨0, 228, 4096, [], 0⟩) ∧ (0 : Nat) = 0) := by
  constructor
  · exact (realloc_copies_truncated_min ⟨0, 204, 4096, [], 0⟩ 104 50).2.2
      208 50 ⟨0, 258, 4096, [], 0⟩ (by decide)
  · have h := (realloc_copies_truncated_min ⟨0, 204, 4096, [], 0⟩ 104 20).1
      208 0 ⟨0, 228, 4096, [], 0⟩ (by decide)
    exact ⟨h.1, h.2.symm⟩

/-- C8: zeroAllocate requests allocate of the product size * count
computed by unchecked unsigned long multiplication — modulo 2^64, so
an overflowing product silently wraps before the allocate-level checks
run — and hands the zero-fill primitive that same wrapped byte count
for the returned block. -/
theorem calloc_wrapped_product (ctx : BufferAllocator) (size count : Nat) :
    (∀ a z st', allocatorCalloc size count ctx = .ok (a, z, st') →
       z = (size * count) % W ∧
       allocatorMalloc ((size * count) % W) ctx = .ok (a, st')) ∧
    (∀ e, allocatorCalloc size count ctx = .error e ↔
       allocatorMalloc ((size * count) % W) ctx = .error e) := by
  constructor
  · intro a z st' h
    unfold allocatorCalloc at h
    cases hm : allocatorMalloc ((size * count) % W) ctx with
    | error e => rw [hm] at h; exact absurd h (by simp)
    | ok v =>
      obtain ⟨p, st⟩ := v
      rw [hm] at h
      simp only at h
      injection h with h
      injection h with ha h
      injection h with hz hst
      subst ha; subst hz; subst hst
      exact ⟨rfl, rfl⟩
  · intro e
    unfold allocatorCalloc
    cases hm : allocatorMalloc ((size * count) % W) ctx with
    | error e' => simp
    | ok v => obtain ⟨p, st⟩ := v; simp

theorem calloc_wrapped_product_witness :
    ((2 ^ 32 : Nat) = (2 ^ 32 * (2 ^ 32 + 1)) % W ∧
     allocatorMalloc ((2 ^ 32 * (2 ^ 32 + 1)) % W)
       ⟨0, 104, 2 ^ 33 + 200, [], 0⟩ =
       .ok (104, ⟨0, 2 ^ 32 + 104, 2 ^ 33 + 200, [], 0⟩)) ∧
    (2 ^ 32 * (2 ^ 32 + 1)) % W < 2 ^ 32 * (2 ^ 32 + 1) := by
  constructor
  · exact (calloc_wrapped_product ⟨0, 104, 2 ^ 33 + 200, [], 0⟩
      (2 ^ 32) (2 ^ 32 + 1)).1 104 (2 ^ 32)
      ⟨0, 2 ^ 32 + 104, 2 ^ 33 + 200, [], 0⟩ (by decide)
  · decide

/-- C9: every address returned by a successful allocate, zeroAllocate,
duplicate (clone), or resize call is pointer-size aligned: divisible
by ALIGNMENT = sizeof(char*) = 8. -/
theorem returned_addresses_aligned (ctx : BufferAllocator)
    (n c : Nat) (o : Option Nat) :
    (∀ a st', allocatorMalloc n ctx = .ok (a, st') → ALIGNMENT ∣ a) ∧
    (∀ a z st', allocatorCalloc n c ctx = .ok (a, z, st') →
       ALIGNMENT ∣ a) ∧
    (∀ a z st', allocatorClone n ctx = .ok (a, z, st') → ALIGNMENT ∣ a) ∧
    (∀ a z st', allocatorRealloc o n ctx = .ok (a, z, st') →
       ALIGNMENT ∣ a) := by
  refine ⟨?_, ?_, ?_, ?_⟩
  · intro a st' h
    rw [malloc_ok_addr n ctx a st' h]
    exact alignment_dvd_getAligned ctx.pointer
  · intro a z st' h
    unfold allocatorCalloc at h
    cases hm : allocatorMalloc ((n * c) % W) ctx with
    | error e => rw [hm] at h; exact absurd h (by simp)
    | ok v =>
      obtain ⟨p, st⟩ := v
      rw [hm] at h
      simp only at h
      injection h with h
      injection h with ha h
      subst ha
      rw [malloc_ok_addr _ ctx p st hm]
      exact alignment_dvd_getAligned ctx.pointer
  · intro a z st' h
    unfold allocatorClone at h
    cases hm : allocatorMalloc n ctx with
    | error e => rw [hm] at h; exact absurd h (by simp)
    | ok v =>
      obtain ⟨p, st⟩ := v
      rw [hm] at h
      simp only at h
      injection h with h
      injection h with ha h
      subst ha
      rw [malloc_ok_addr _ ctx p st hm]
      exact alignment_dvd_getAligned ctx.pointer
  · intro a z st' h
    cases o with
    | none =>
      unfold allocatorRealloc at h
      cases hm : allocatorMalloc n ctx with
      | error e => rw [hm] at h; exact absurd h (by simp)
      | ok v =>
        obtain ⟨p, st⟩ := v
        rw [hm] at h
        simp only at h
        injection h with h
        injection h with ha h
        subst ha
        rw [malloc_ok_addr _ ctx p st hm]
        exact alignment_dvd_getAligned ctx.pointer
    | some orig =>
      unfold allocatorRealloc at h
      dsimp only at h
      cases hm : allocatorMalloc n ctx with
      | error e => rw [hm] at h; exact absurd h (by simp)
      | ok v =>
        obtain ⟨p, st⟩ := v
        rw [hm] at h
        simp only at h
        injection h with h
        injection h with ha h
        subst ha
        rw [malloc_ok_addr _ ctx p st hm]
        exact alignment_dvd_getAligned ctx.pointer

theorem returned_addresses_aligned_witness :
    ALIGNMENT ∣ (104 : Nat) ∧ ALIGNMENT ∣ (208 : Nat) ∧
    ALIGNMENT ∣ (312 : Nat) ∧ ALIGNMENT ∣ (416 : Nat) :=
  ⟨(returned_addresses_aligned ⟨0, 104, 4096, [], 0⟩ 100 1 none).1
     104 ⟨0, 204, 4096, [], 0⟩ (by decide),
   (returned_addresses_aligned ⟨0, 204, 4096, [], 0⟩ 10 10 none).2.1
     208 100 ⟨0, 308, 4096, [], 0⟩ (by decide),
   (returned_addresses_aligned ⟨0, 308, 4096, [], 0⟩ 100 1 none).2.2.1
     312 100 ⟨0, 412, 4096, [], 0⟩ (by decide),
   (returned_addresses_aligned ⟨0, 412, 4096, [], 0⟩ 20 1 (some 104)).2.2.2
     416 20 ⟨0, 436, 4096, [], 0⟩ (by decide)⟩

/-- A call on the free-job chain: a registerOnFree or a cancel of a
previously returned handle. -/
inductive Op where
  | register (callback callbackContext : Nat)
  | cancel (uid : Nat)
deriving DecidableEq

/-- Run a sequence of chain calls, also collecting every callback
invocation the calls make; in the source neither onFree nor
removeOnFreeJob invokes any callback, so no step contributes one. -/
def runOps (szJob : Nat) : List Op → BufferAllocator →
    Except Int (BufferAllocator × List (Nat × Nat))
  | [], st => .ok (st, [])
  | .register cb cx :: rest, st =>
    match onFree cb cx szJob st with
    | .error e => .error e
    | .ok (_, st') => runOps szJob rest st'
  | .cancel u :: rest, st => runOps szJob rest (removeOnFreeJob u st).2

/-- Does the call list contain a cancel of handle u? -/
def hasCancel : List Op → Nat → Bool
  | [], _ => false
  | .register _ _ :: rest, u => hasCancel rest u
  | .cancel v :: rest, u => (u == v) || hasCancel rest u

/-- Modelled from the spec: the (callback, context) pairs of the
registrations that are never cancelled after their registration, in
registration order, where u is the next fresh handle identity. -/
def specSurvivors : List Op → Nat → List (Nat × Nat)
  | [], _ => []
  | .register cb cx :: rest, u =>
    (if hasCancel rest u then [] else [(cb, cx)]) ++
      specSurvivors rest (u + 1)
  | .cancel _ :: rest, u => specSurvivors rest u

lemma removeFirst_filter (u : Nat) (l : List Job)
    (hnd : (l.map Job.uid).Nodup) :
    (match removeFirstJob u l with
     | some l' => l'
     | none => l) = l.filter (fun j => !(j.uid == u)) := by
  induction l with
  | nil => rfl
  | cons j rest ih =>
    simp only [List.map_cons, List.nodup_cons] at hnd
    simp only [removeFirstJob]
    by_cases hj : j.uid = u
    · simp only [hj, if_pos rfl, List.filter_cons, beq_self_eq_true,
        Bool.not_true, Bool.false_eq_true, if_neg, reduceIte]
      symm
      rw [List.filter_eq_self]
      intro x hx
      have : x.uid ∈ rest.map Job.uid := List.mem_map_of_mem Job.uid hx
      have hne : x.uid ≠ u := by
        intro heq
        apply hnd.1
        rw [hj, ← heq]
        exact this
      simp [hne]
    · rw [if_neg hj]
      have hrest := ih hnd.2
      cases hr : removeFirstJob u rest with
      | some l' =>
        rw [hr] at hrest
        simp only [Option.map_some', List.filter_cons]
        have : (!(j.uid == u)) = true := by simp [hj]
        rw [if_pos this, ← hrest]
      | none =>
        rw [hr] at hrest
        simp only [Option.map_none', List.filter_cons]
        have : (!(j.uid == u)) = true := by simp [hj]
        rw [if_pos this, ← hrest]

lemma removeOnFreeJob_fields (u : Nat) (st : BufferAllocator)
    (hnd : (st.onFree.map Job.uid).Nodup) :
    (removeOnFreeJob u st).2.onFree =
      st.onFree.filter (fun j => !(j.uid == u)) ∧
    (removeOnFreeJob u st).2.nextUid = st.nextUid ∧
    (removeOnFreeJob u st).2.pointer = st.pointer ∧
    (removeOnFreeJob u st).2.basePointer = st.basePointer := by
  have hf := removeFirst_filter u st.onFree hnd
  unfold removeOnFreeJob
  cases hr : removeFirstJob u st.onFree with
  | some l =>
    rw [hr] at hf
    exact ⟨hf, rfl, rfl, rfl⟩
  | none =>
    rw [hr] at hf
    exact ⟨hf, rfl, rfl, rfl⟩

lemma onFree_ok_fields (cb cx szJob : Nat) (st : BufferAllocator)
    (hdl : Nat) (st' : BufferAllocator)
    (h : onFree cb cx szJob st = .ok (hdl, st')) :
    st'.onFree = st.onFree ++ [⟨st.nextUid, cb, cx⟩] ∧
    st'.nextUid = st.nextUid + 1 ∧ hdl = st.nextUid := by
  unfold onFree at h
  cases hm : allocatorMalloc szJob st with
  | error e => rw [hm] at h; exact absurd h (by simp)
  | ok v =>
    obtain ⟨p, stm⟩ := v
    rw [hm] at h
    simp only at h
    injection h with h
    injection h with hh hs
    have hfields := ((malloc_ok_iff szJob st p stm).mp hm).2.2.2
    subst hfields
    subst hs
    exact ⟨rfl, rfl, hh.symm⟩

lemma runOps_chain (szJob : Nat) (ops : List Op)
    (st1 : BufferAllocator) (tr : List (Nat × Nat)) :
    ∀ (st : BufferAllocator),
    (st.onFree.map Job.uid).Nodup →
    (∀ j ∈ st.onFree, j.uid < st.nextUid) →
    runOps szJob ops st = .ok (st1, tr) →
    st1.onFree.map (fun j => (j.callback, j.callbackContext)) =
      (st.onFree.filter (fun j => ! hasCancel ops j.uid)).map
        (fun j => (j.callback, j.callbackContext)) ++
      specSurvivors ops st.nextUid ∧
    tr = [] := by
  induction ops with
  | nil =>
    intro st _ _ h
    simp only [runOps] at h
    injection h with h
    injection h with h1 h2
    subst h1; subst h2
    simp [hasCancel, specSurvivors]
  | cons op rest ih =>
    intro st hnd hlt h
    cases op with
    | register cb cx =>
      simp only [runOps] at h
      cases hm : onFree cb cx szJob st with
      | error e => rw [hm] at h; exact absurd h (by simp)
      | ok v =>
        obtain ⟨hdl, st'⟩ := v
        rw [hm] at h
        simp only at h
        obtain ⟨hof, hnu, -⟩ := onFree_ok_fields cb cx szJob st hdl st' hm
        have hfresh : st.nextUid ∉ st.onFree.map Job.uid := by
          intro hmem
          obtain ⟨j, hj, hju⟩ := List.mem_map.mp hmem
          exact absurd (hlt j hj) (by omega)
        have hnd' : (st'.onFree.map Job.uid).Nodup := by
          rw [hof, List.map_append]
          rw [List.nodup_append]
          refine ⟨hnd, by simp, ?_⟩
          intro x hx hy
          simp only [List.map_cons, List.map_nil, List.mem_singleton] at hy
          subst hy
          exact hfresh hx
        have hlt' : ∀ j ∈ st'.onFree, j.uid < st'.nextUid := by
          intro j hj
          rw [hof] at hj
          rw [hnu]
          rcases List.mem_append.mp hj with hj | hj
          · have := hlt j hj; omega
          · simp only [List.mem_singleton] at hj
            subst hj
            exact Nat.lt_succ_self _
        obtain ⟨hmain, htr⟩ := ih st' hnd' hlt' h
        refine ⟨?_, htr⟩
        rw [hmain, hof, hnu]
        simp only [List.filter_append, List.map_append]
        have hc : (fun j => ! hasCancel (Op.register cb cx :: rest) j.uid) =
            (fun j : Job => ! hasCancel rest j.uid) := by
          funext j
          simp [hasCancel]
        rw [hc]
        rw [List.append_assoc]
        congr 1
        simp only [specSurvivors]
        cases hb : hasCancel rest st.nextUid with
        | true => simp [List.filter_cons, hb]
        | false => simp [List.filter_cons, hb]
    | cancel u =>
      simp only [runOps] at h
      obtain ⟨hof, hnu, -, -⟩ := removeOnFreeJob_fields u st hnd
      have hnd' : ((removeOnFreeJob u st).2.onFree.map Job.uid).Nodup := by
        rw [hof]
        exact ((List.filter_sublist st.onFree).map Job.uid).nodup hnd
      have hlt' : ∀ j ∈ (removeOnFreeJob u st).2.onFree,
          j.uid < (removeOnFreeJob u st).2.nextUid := by
        intro j hj
        rw [hof] at hj
        rw [hnu]
        exact hlt j (List.mem_filter.mp hj).1
      obtain ⟨hmain, htr⟩ := ih (removeOnFreeJob u st).2 hnd' hlt' h
      refine ⟨?_, htr⟩
      rw [hmain, hof, hnu]
      rw [List.filter_filter]
      have hc : (fun a : Job =>
          (! hasCancel rest a.uid) && ! (a.uid == u)) =
          (fun j : Job => ! hasCancel (Op.cancel u :: rest) j.uid) := by
        funext j
        simp only [hasCancel]
        cases hju : (j.uid == u) with
        | true =>
          have h1 : j.uid = u := by simpa using hju
          have h2 : (u == j.uid) = true := beq_iff_eq.mpr h1.symm
          simp [h2, hju]
        | false =>
          have h1 : ¬ j.uid = u := by simpa using hju
          have h2 : (u == j.uid) = false :=
            beq_eq_false_iff_ne.mpr (fun he => h1 he.symm)
          simp [h2, hju]
      rw [hc]
      rfl

/-- C5: from any arena state with an empty free-job chain (as
construction produces), for every sequence of registerOnFree and
cancel calls that completes without an allocation failure, the calls
themselves invoke no callback, and bulkFree then invokes exactly the
callbacks of the Jobs registered and not later cancelled, once each,
in registration order, and resets the cursor to basePointer. -/
theorem bulkFree_fires_survivors_in_order (szJob : Nat) (ops : List Op)
    (st0 st1 : BufferAllocator) (tr : List (Nat × Nat))
    (h0 : st0.onFree = [])
    (h : runOps szJob ops st0 = .ok (st1, tr)) :
    tr = [] ∧
    (freeAllocator st1).1 = specSurvivors ops st0.nextUid ∧
    (freeAllocator st1).2.pointer = st1.basePointer := by
  obtain ⟨hmain, htr⟩ := runOps_chain szJob ops st1 tr st0
    (by rw [h0]; simp) (by rw [h0]; simp) h
  refine ⟨htr, ?_, rfl⟩
  show st1.onFree.map (fun j => (j.callback, j.callbackContext)) = _
  rw [hmain, h0]
  simp

theorem bulkFree_fires_survivors_in_order_witness :
    ([] : List (Nat × Nat)) = [] ∧
    (freeAllocator ⟨0, 248, 4096, [⟨0, 11, 1⟩, ⟨2, 33, 3⟩], 3⟩).1 =
      specSurvivors
        [Op.register 11 1, Op.register 22 2, Op.register 33 3,
         Op.cancel 1] 0 ∧
    (freeAllocator ⟨0, 248, 4096, [⟨0, 11, 1⟩, ⟨2, 33, 3⟩], 3⟩).2.pointer =
      (⟨0, 248, 4096, [⟨0, 11, 1⟩, ⟨2, 33, 3⟩], 3⟩ :
        BufferAllocator).basePointer :=
  bulkFree_fires_survivors_in_order 48
    [Op.register 11 1, Op.register 22 2, Op.register 33 3, Op.cancel 1]
    ⟨0, 104, 4096, [], 0⟩ ⟨0, 248, 4096, [⟨0, 11, 1⟩, ⟨2, 33, 3⟩], 3⟩ []
    (by decide) (by decide)

/-- C10: bulkFree does not write the free-job chain head: after
bulkFree the onFree field still holds the same (now reclaimed) Job
list, so a second bulkFree on the same handle invokes exactly the
same callback sequence again rather than finding an empty chain. -/
theorem bulkFree_preserves_chain (ctx : BufferAllocator) :
    (freeAllocator ctx).2.onFree = ctx.onFree ∧
    (freeAllocator (freeAllocator ctx).2).1 = (freeAllocator ctx).1 :=
  ⟨rfl, rfl⟩

end BufferAlloc
